import Mathlib

/-!
Shallow embedding of the WormDB document store (wormdb.py).

The Python module keeps a process-wide cache (a dict from collection name to a
list of record dicts) together with a JSON file on disk.  Record dicts are
mutable objects that can be aliased — in particular the metaclass stores a
single class-level dict in the attribute holding field values, which every
instance of that schema resolves to.  To capture this aliasing faithfully the
embedding uses an explicit heap of dicts: a reference is an index into the
heap, the cache maps collection names to lists of references, and every
operation threads the whole interpreter state.

Machine model notes:
  * Python dicts are modelled as association lists with Python's insertion
    order semantics (assignment to an existing key keeps its position, a fresh
    key is appended at the end).
  * Record values are JSON scalars; the claims under study involve only null,
    booleans, integers and strings, so nested arrays/objects are not included.
  * Exceptions do not roll back state, so the mutating document operations
    return the final state together with an optional error.
-/

namespace WormSpec

/-- JSON-style scalar value stored in a record field.  vNull models Python
None, which is also what the descriptor get returns for an unset field. -/
inductive Val where
  | vNull
  | vBool (b : Bool)
  | vInt (n : Int)
  | vStr (s : String)
deriving DecidableEq, Repr

/-- Lookup in an association list (first binding wins; dicts built by the
operations below never hold a duplicate key). -/
def assocGet {α : Type} : List (String × α) → String → Option α
  | [], _ => none
  | (k', v) :: rest, k => if k' = k then some v else assocGet rest k

/-- Python dict assignment: an existing key keeps its position and gets the
new value, a fresh key is appended at the end. -/
def assocSet {α : Type} : List (String × α) → String → α → List (String × α)
  | [], k, v => [(k, v)]
  | (k', v') :: rest, k, v =>
      if k' = k then (k, v) :: rest else (k', v') :: assocSet rest k v

/-- A record: one Python dict from field name to value. -/
abbrev Dict := List (String × Val)

/-- A reference to a mutable dict object: an index into the heap. -/
abbrev Ref := Nat

/-- The heap of all dict objects allocated so far. -/
abbrev Heap := List Dict

/-- Dereference a dict (out-of-range references never arise in the modelled
runs; they read as the empty dict). -/
def heapGet (h : Heap) (r : Ref) : Dict := h.getD r []

/-- Overwrite the dict object behind a reference. -/
def heapSet (h : Heap) (r : Ref) (d : Dict) : Heap := h.set r d

/-- Allocate a fresh dict object. -/
def heapAlloc (h : Heap) (d : Dict) : Heap × Ref := (h ++ [d], h.length)

/-- Errors surfaced by the embedded operations.  corruptStore stands for the
json.decoder.JSONDecodeError escaping WormDB.read, typeError for the TypeError
of adding 1 to a non-integer maximum in DocumentMeta._next_id, attributeError
for a getattr miss. -/
inductive PyErr where
  | multiplePrimaryKey
  | documentAlreadyExists
  | documentDoesNotExist
  | corruptStore
  | typeError
  | attributeError
  | ioError
deriving DecidableEq, Repr

/-- On-disk state of the database file.  A malformed file only remembers its
byte size (WormDB.read consults os.path.getsize when json parsing fails); a
zero-byte file is a special case of malformed, since json.load rejects the
empty input.  A well-formed file is the parsed top-level mapping. -/
inductive FileState where
  | absent
  | malformed (size : Nat)
  | wellFormed (content : List (String × List Dict))
deriving DecidableEq, Repr

/-- Whole interpreter state: the heap of dict objects, the global CACHE
(collection name to list of record references) and the file behind DB_PATH. -/
structure PyState where
  heap : Heap
  cache : List (String × List Ref)
  file : FileState
deriving DecidableEq, Repr

/-- Serialization used by WormDB.write: the cache with every record reference
dereferenced, i.e. what json.dump writes to disk. -/
def serializeCache (st : PyState) : List (String × List Dict) :=
  st.cache.map fun p => (p.1, p.2.map (heapGet st.heap))

/-- WormDB.write: dump the whole cache to the file. -/
def wormWrite (st : PyState) : PyState :=
  { st with file := FileState.wellFormed (serializeCache st) }

/-- Allocate the records of one collection read from disk, in order. -/
def loadRecs : Heap → List Dict → Heap × List Ref
  | h, [] => (h, [])
  | h, d :: ds =>
      let r := h.length
      let res := loadRecs (h ++ [d]) ds
      (res.1, r :: res.2)

/-- Allocate every collection of a parsed file, in order. -/
def loadColls : Heap → List (String × List Dict) → Heap × List (String × List Ref)
  | h, [] => (h, [])
  | h, (n, ds) :: rest =>
      let res := loadRecs h ds
      let res2 := loadColls res.1 rest
      (res2.1, (n, res.2) :: res2.2)

/-- WormDB.read: parse the file into the global cache.  json.load failure is
ignored when the file has zero bytes (the cache becomes empty); otherwise the
decode error escapes.  On success the cache is replaced wholesale with freshly
allocated record dicts. -/
def wormRead (st : PyState) : PyState × Option PyErr :=
  match st.file with
  | FileState.absent => (st, some PyErr.ioError)
  | FileState.malformed size =>
      if size = 0 then ({ st with cache := [] }, none)
      else (st, some PyErr.corruptStore)
  | FileState.wellFormed c =>
      let res := loadColls st.heap c
      ({ st with heap := res.1, cache := res.2 }, none)

/-- WormDB.__init__: record the path (implicit here) and read the database
only when the file exists. -/
def wormDBInit (f : FileState) : PyState × Option PyErr :=
  let st0 : PyState := ⟨[], [], f⟩
  match f with
  | FileState.absent => (st0, none)
  | _ => wormRead st0

/-- A Field descriptor: optional explicit name (Field.__set_name__ later fills
in the attribute name when it is absent), primary-key flag, and optional
default value (Python None is modelled as an absent default, matching the
guard self.default is not None). -/
structure FieldD where
  fname : Option String
  primary_key : Bool
  defaultVal : Option Val
deriving DecidableEq, Repr

/-- A document class as produced by DocumentMeta.__new__: its name, the _meta
fields list (attribute name paired with the descriptor, names already resolved
by Field.__set_name__), the _meta id_field entry, and the reference to the
class-level _data dict.  The _data dict lives at class level in wormdb.py, so
the schema carries the one reference every instance resolves to. -/
structure Schema where
  sname : String
  fields : List (String × FieldD)
  id_field : Option String
  classData : Ref
deriving DecidableEq, Repr

/-- The primary key name used by the document operations (self.pk).  After
DocumentMeta.__new__ succeeds, id_field is always some name. -/
def Schema.pkName (s : Schema) : String := s.id_field.getD ""

/-- A document instance.  Creating an instance runs no __init__ and allocates
no per-instance storage in wormdb.py, so an instance is just its class plus an
object identity (the identity takes no part in any operation). -/
structure Inst where
  schema : Schema
  objId : Nat
deriving DecidableEq, Repr

/-- The _data dict an instance reads and writes: getattr(instance, "_data")
finds the class attribute, since the instance dict never holds one. -/
def instData (i : Inst) : Ref := i.schema.classData

/-- Field.__get__: instance._data.get(self.name); a missing key reads as
None. -/
def fieldGet (st : PyState) (i : Inst) (f : FieldD) : Val :=
  (assocGet (heapGet st.heap (instData i)) (f.fname.getD "")).getD Val.vNull

/-- Field.__set__: substitute the default when the assigned value is None and
a default exists, then store into instance._data under the field name. -/
def fieldSet (st : PyState) (i : Inst) (f : FieldD) (v : Val) : PyState :=
  let v' := if v = Val.vNull ∧ f.defaultVal.isSome then f.defaultVal.getD v else v
  let d := heapGet st.heap (instData i)
  { st with heap := heapSet st.heap (instData i) (assocSet d (f.fname.getD "") v') }

/-- Attribute read on an instance: getattr dispatches to the descriptor bound
at that attribute name; a name with no descriptor raises AttributeError
(returned as none).  Non-field attributes are outside the modelled surface. -/
def getAttr (st : PyState) (i : Inst) (attr : String) : Option Val :=
  (assocGet i.schema.fields attr).map (fieldGet st i)

/-- Attribute write on an instance through the descriptor bound at that
attribute name.  Assignment to an undeclared attribute would create a plain
instance attribute, which no modelled run performs, so it is a no-op here. -/
def setAttr (st : PyState) (i : Inst) (attr : String) (v : Val) : PyState :=
  match assocGet i.schema.fields attr with
  | some f => fieldSet st i f v
  | none => st

/-- The primary-key scan of DocumentMeta.__new__.  It runs before
type.__new__ calls Field.__set_name__, so a descriptor declared without an
explicit name still has name None here: the first primary-key field stores
value.name — possibly None — into _meta, and a second primary-key field only
raises MultiplePrimaryKey (returned as none) when that stored entry is not
None. -/
def scanFields : List (String × FieldD) → Option String → Option (Option String)
  | [], idf => some idf
  | (_, f) :: rest, idf =>
      if f.primary_key then
        match idf with
        | none => scanFields rest f.fname
        | some _ => none
      else scanFields rest idf

/-- Python treats booleans as integers, so max and + accept them; every other
non-integer value makes DocumentMeta._next_id raise a TypeError. -/
def idAsInt : Val → Option Int
  | Val.vInt n => some n
  | Val.vBool b => some (if b then 1 else 0)
  | _ => none

/-- The id entries of a collection's records, as _next_id reads them. -/
def idsOf (st : PyState) (refs : List Ref) : List (Option Val) :=
  refs.map fun r => assocGet (heapGet st.heap r) "id"

/-- Coerce a list of id entries to integers; none when some entry is not an
integer, making the max-plus-one arithmetic raise. -/
def intsOf : List (Option Val) → Option (List Int)
  | [] => some []
  | v :: rest =>
      match v.bind idAsInt with
      | none => none
      | some n => (intsOf rest).map fun l => n :: l

/-- Maximum of a nonempty list as Python computes it (0 for the never-used
empty case). -/
def maxInt : List Int → Int
  | [] => 0
  | h :: t => t.foldl max h

/-- DocumentMeta._next_id: any KeyError — the collection missing from the
cache or a record missing its id entry — yields 1; an empty collection yields
1; otherwise one more than the maximum id.  none encodes the TypeError raised
when the ids are not integers. -/
def nextId (st : PyState) (nm : String) : Option Int :=
  match assocGet st.cache nm with
  | none => some 1
  | some refs =>
      if (idsOf st refs).any Option.isNone then some 1
      else
        match intsOf (idsOf st refs) with
        | none => none
        | some [] => some 1
        | some (h :: t) => some (t.foldl max h + 1)

/-- Field.__set_name__, as type.__new__ applies it to every descriptor in the
namespace: a descriptor with no explicit name receives its attribute name. -/
def resolveNames (l : List (String × FieldD)) : List (String × FieldD) :=
  l.map fun p => (p.1, { p.2 with fname := some (p.2.fname.getD p.1) })

/-- Result of creating a document class. -/
inductive MetaResult where
  | ok (st : PyState) (sch : Schema)
  | err (e : PyErr)
deriving DecidableEq, Repr

/-- DocumentMeta.__new__ for a concrete document class: allocate the
class-level _data dict, scan the declared field descriptors for a primary
key, and when none was recorded synthesize an id field, put it at the front
of the fields list and pre-populate _data with the auto-increment value
computed from the cache as it stands now.  Finally type.__new__ resolves the
descriptor names. -/
def documentMetaNew (st : PyState) (nm : String) (declared : List (String × FieldD)) :
    MetaResult :=
  match scanFields declared none with
  | none => MetaResult.err PyErr.multiplePrimaryKey
  | some (some pk) =>
      let res := heapAlloc st.heap []
      MetaResult.ok { st with heap := res.1 }
        ⟨nm, resolveNames declared, some pk, res.2⟩
  | some none =>
      match nextId st nm with
      | none => MetaResult.err PyErr.typeError
      | some n =>
          let idF : FieldD := ⟨some "id", true, none⟩
          let res := heapAlloc st.heap [("id", Val.vInt n)]
          MetaResult.ok { st with heap := res.1 }
            ⟨nm, resolveNames (("id", idF) :: declared), some "id", res.2⟩

/-- One filtering pass of Document.get_raw: list(filter(lambda r: v == r[k],
seq)).  A record lacking the key raises KeyError inside the lambda (returned
as none); the caller's except clause then discards everything. -/
def filterStep (st : PyState) (k : String) (v : Val) (seq : List Ref) :
    Option (List Ref) :=
  if seq.all fun r => (assocGet (heapGet st.heap r) k).isSome then
    some (seq.filter fun r => decide (assocGet (heapGet st.heap r) k = some v))
  else none

/-- The criteria loop of Document.get_raw, one filter per keyword argument in
order. -/
def runFilters (st : PyState) : List (String × Val) → List Ref → Option (List Ref)
  | [], seq => some seq
  | (k, v) :: rest, seq =>
      match filterStep st k v seq with
      | none => none
      | some seq' => runFilters st rest seq'

/-- Document.get_raw: look the collection up in the cache and filter it by
every criterion in turn; any KeyError — the collection missing, or a record
missing a criteria key — is caught and yields the empty list. -/
def getRaw (st : PyState) (sch : Schema) (criteria : List (String × Val)) :
    List Ref :=
  match assocGet st.cache sch.sname with
  | none => []
  | some seq =>
      match runFilters st criteria seq with
      | none => []
      | some res => res

/-- The body of the per-match loop of Document.get: construct a default
instance (which touches nothing) and copy the raw record's items one by one
into its _data — the class-level dict. -/
def copyRecord (st : PyState) (sch : Schema) (r : Ref) : PyState :=
  let record := heapGet st.heap r
  let d := heapGet st.heap sch.classData
  { st with
    heap := heapSet st.heap sch.classData (record.foldl (fun acc p => assocSet acc p.1 p.2) d) }

/-- Document.get: wrap every get_raw match in a fresh instance whose _data is
filled from the raw record, bypassing Field.__set__.  The returned instances
are numbered by position. -/
def docGet (st : PyState) (sch : Schema) (criteria : List (String × Val)) :
    PyState × List Inst :=
  let seq := getRaw st sch criteria
  let st' := seq.foldl (fun s r => copyRecord s sch r) st
  (st', (List.range seq.length).map fun k => ⟨sch, k⟩)

/-- Document.save: fetch or create the collection, look up the primary-key
value straight out of _data (self._data.get(self.pk)), run the duplicate
check through Document.get — including its copying side effects — and either
append the live _data reference and write the file, or raise
DocumentAlreadyExists. -/
def docSave (st : PyState) (i : Inst) : PyState × Option PyErr :=
  let cn := i.schema.sname
  let st1 :=
    match assocGet st.cache cn with
    | some _ => st
    | none => { st with cache := assocSet st.cache cn [] }
  let pkv := (assocGet (heapGet st1.heap (instData i)) i.schema.pkName).getD Val.vNull
  let res := docGet st1 i.schema [(i.schema.pkName, pkv)]
  if res.2.isEmpty then
    let col := (assocGet res.1.cache cn).getD []
    (wormWrite { res.1 with cache := assocSet res.1.cache cn (col ++ [instData i]) }, none)
  else (res.1, some PyErr.documentAlreadyExists)

/-- Document.update: read the primary key through getattr(self, self.pk),
find the raw matches; if none raise DocumentDoesNotExist, otherwise locate
the first record of the collection that compares equal to the first match
(list.index uses value equality of dicts) and merge _data into it key-wise in
place, then write the file. -/
def docUpdate (st : PyState) (i : Inst) : PyState × Option PyErr :=
  match getAttr st i i.schema.pkName with
  | none => (st, some PyErr.attributeError)
  | some pkv =>
      match getRaw st i.schema [(i.schema.pkName, pkv)] with
      | [] => (st, some PyErr.documentDoesNotExist)
      | q0 :: _ =>
          let col := (assocGet st.cache i.schema.sname).getD []
          let tgt := (col.find? fun r =>
            decide (heapGet st.heap r = heapGet st.heap q0)).getD q0
          let merged := (heapGet st.heap (instData i)).foldl
            (fun acc p => assocSet acc p.1 p.2) (heapGet st.heap tgt)
          (wormWrite { st with heap := heapSet st.heap tgt merged }, none)

/-- Remove the first element of the collection whose record compares equal to
the given one (list.remove uses value equality of dicts). -/
def removeFirstEq (h : Heap) : List Ref → Ref → List Ref
  | [], _ => []
  | r :: rest, q =>
      if heapGet h r = heapGet h q then rest
      else r :: removeFirstEq h rest q

/-- Document.delete: read the primary key through getattr(self, self.pk),
find the raw matches; if none raise DocumentDoesNotExist, otherwise remove
the first record comparing equal to the first match and write the file. -/
def docDelete (st : PyState) (i : Inst) : PyState × Option PyErr :=
  match getAttr st i i.schema.pkName with
  | none => (st, some PyErr.attributeError)
  | some pkv =>
      match getRaw st i.schema [(i.schema.pkName, pkv)] with
      | [] => (st, some PyErr.documentDoesNotExist)
      | q0 :: _ =>
          let col := (assocGet st.cache i.schema.sname).getD []
          (wormWrite { st with
            cache := assocSet st.cache i.schema.sname (removeFirstEq st.heap col q0) }, none)

/-- Transcription of the spec's description of get_raw, for comparison with
the embedded code: the records that have, for each criteria key, a value
equal to the required one (logical AND), in collection order; all records for
empty criteria; the empty sequence when the collection does not exist. -/
def getRawSpec (st : PyState) (sch : Schema) (criteria : List (String × Val)) :
    List Ref :=
  match assocGet st.cache sch.sname with
  | none => []
  | some seq =>
      seq.filter fun r =>
        criteria.all fun p => decide (assocGet (heapGet st.heap r) p.1 = some p.2)

/-! Concrete runs used by the claim theorems below.  Every literal state was
obtained by evaluating the embedded operations and is re-checked inside the
theorems by decidable equalities against the operations themselves. -/

/-- Empty starting state: no file, empty cache and heap. -/
def emptyStart : PyState := ⟨[], [], FileState.absent⟩

/-- Declaration of the schema from the spec scenario: class User with a single
plain field named by its attribute, name = Field(). -/
def c1Declared : List (String × FieldD) := [("name", ⟨none, false, none⟩)]

/-- The User class as DocumentMeta.__new__ builds it from an empty store. -/
def c1Sch : Schema :=
  ⟨"User", [("id", ⟨some "id", true, none⟩), ("name", ⟨some "name", false, none⟩)],
   some "id", 0⟩

/-- State after defining User on an empty store: the class-level _data dict
already holds the tentative id 1. -/
def c1St1 : PyState := ⟨[[("id", Val.vInt 1)]], [], FileState.absent⟩

/-- Instance A of User. -/
def c1A : Inst := ⟨c1Sch, 0⟩

/-- Instance B of User, a distinct object. -/
def c1B : Inst := ⟨c1Sch, 1⟩

/-- Same schema declaration, replayed for the spec scenario of C3. -/
def c3St2 : PyState := setAttr c1St1 c1A "name" (Val.vStr "Alice")

/-- Result of A.save() in the scenario. -/
def c3Save1 : PyState × Option PyErr := docSave c3St2 c1A

/-- Result of User.get(id=1) after A.save(). -/
def c3G : PyState × List Inst := docGet c3Save1.1 c1Sch [("id", Val.vInt 1)]

/-- State after B.name = "Bob". -/
def c3St4 : PyState := setAttr c3G.1 c1B "name" (Val.vStr "Bob")

/-- Result of B.save(). -/
def c3Save2 : PyState × Option PyErr := docSave c3St4 c1B

/-- Two primary-key descriptors declared without explicit names, the way the
Field docstring suggests (name defaults to the attribute name). -/
def c2Unnamed : List (String × FieldD) := [("a", ⟨none, true, none⟩), ("b", ⟨none, true, none⟩)]

/-- The same two primary-key descriptors with explicit names. -/
def c2Named : List (String × FieldD) :=
  [("a", ⟨some "a", true, none⟩), ("b", ⟨some "b", true, none⟩)]

/-- File for the C5 run: collection P already holds a record with primary key
1 and an extra field. -/
def c5File : FileState :=
  FileState.wellFormed [("P", [[("key", Val.vInt 1), ("x", Val.vStr "r")]])]

/-- State right after WormDB(path) loaded that file. -/
def c5St0 : PyState :=
  ⟨[[("key", Val.vInt 1), ("x", Val.vStr "r")]], [("P", [0])], c5File⟩

/-- Declaration of schema P with an explicit primary-key field. -/
def c5Declared : List (String × FieldD) := [("key", ⟨some "key", true, none⟩)]

/-- The P class: explicit primary key, class _data allocated empty at ref 1. -/
def c5Sch : Schema := ⟨"P", [("key", ⟨some "key", true, none⟩)], some "key", 1⟩

/-- State after defining P. -/
def c5St1 : PyState :=
  ⟨[[("key", Val.vInt 1), ("x", Val.vStr "r")], []], [("P", [0])], c5File⟩

/-- Instance A of P. -/
def c5A : Inst := ⟨c5Sch, 0⟩

/-- Instance B of P, a distinct object sharing the class _data. -/
def c5B : Inst := ⟨c5Sch, 1⟩

/-- State after A.key = 2. -/
def c5St2 : PyState := setAttr c5St1 c5A "key" (Val.vInt 2)

/-- Result of A.save(): succeeds, appending the class _data dict itself. -/
def c5SaveA : PyState × Option PyErr := docSave c5St2 c5A

/-- State after B.key = 1 (which rewrites the shared, already saved dict). -/
def c5St4 : PyState := setAttr c5SaveA.1 c5B "key" (Val.vInt 1)

/-- Result of B.save(): raises DocumentAlreadyExists. -/
def c5SaveB : PyState × Option PyErr := docSave c5St4 c5B

/-- File for the C6 counterexample: the second record of U lacks the name
key. -/
def c6File : FileState :=
  FileState.wellFormed
    [("U", [[("id", Val.vInt 1), ("name", Val.vStr "x")], [("id", Val.vInt 2)]])]

/-- State after loading that file and defining schema U. -/
def c6St : PyState :=
  ⟨[[("id", Val.vInt 1), ("name", Val.vStr "x")], [("id", Val.vInt 2)],
    [("id", Val.vInt 3)]],
   [("U", [0, 1])], c6File⟩

/-- The U class for the C6 run. -/
def c6Sch : Schema :=
  ⟨"U", [("id", ⟨some "id", true, none⟩), ("name", ⟨some "name", false, none⟩)],
   some "id", 2⟩

/-- Store for the C6 witness: both records carry both keys. -/
def c6wSt : PyState :=
  ⟨[[("id", Val.vInt 1), ("name", Val.vStr "x")],
    [("id", Val.vInt 2), ("name", Val.vStr "y")]],
   [("U", [0, 1])], FileState.absent⟩

/-- File for the C8 run: two complete records in U. -/
def c8File : FileState :=
  FileState.wellFormed
    [("U", [[("id", Val.vInt 1), ("name", Val.vStr "a")],
            [("id", Val.vInt 2), ("name", Val.vStr "b")]])]

/-- State after loading that file and defining schema U (auto id 3 sits in the
class _data at ref 2). -/
def c8St : PyState :=
  ⟨[[("id", Val.vInt 1), ("name", Val.vStr "a")],
    [("id", Val.vInt 2), ("name", Val.vStr "b")],
    [("id", Val.vInt 3)]],
   [("U", [0, 1])], c8File⟩

/-- The U class for the C8 run. -/
def c8Sch : Schema :=
  ⟨"U", [("id", ⟨some "id", true, none⟩), ("name", ⟨some "name", false, none⟩)],
   some "id", 2⟩

/-- Result of U.get() with no criteria on that store. -/
def c8G : PyState × List Inst := docGet c8St c8Sch []

/-- Store for the C4 witness: collection U holds records with ids 3 and 5. -/
def c4wSt : PyState :=
  ⟨[[("id", Val.vInt 3)], [("id", Val.vInt 5)]], [("U", [0, 1])], FileState.absent⟩

/-- Declaration for the C4 witness: one plain field, no primary key. -/
def c4wDeclared : List (String × FieldD) := [("name", ⟨none, false, none⟩)]

/-- State after defining the witness schema: auto id 6 pre-populated. -/
def c4wSt' : PyState :=
  ⟨[[("id", Val.vInt 3)], [("id", Val.vInt 5)], [("id", Val.vInt 6)]],
   [("U", [0, 1])], FileState.absent⟩

/-- The witness schema built by documentMetaNew. -/
def c4wSch : Schema :=
  ⟨"U", [("id", ⟨some "id", true, none⟩), ("name", ⟨some "name", false, none⟩)],
   some "id", 2⟩

/-- File content for the C7 witness. -/
def c7wC : List (String × List Dict) :=
  [("U", [[("id", Val.vInt 1), ("name", Val.vStr "a")]]),
   ("V", [[("id", Val.vInt 1)], [("id", Val.vInt 2)]])]

/-- The User schema replayed for the C9 witness run. -/
def c9St2 : PyState := setAttr c1St1 c1A "name" (Val.vStr "Alice")

/-- State after a successful A.save(). -/
def c9W1 : PyState := (docSave c9St2 c1A).1

/-- State after a successful A.update(). -/
def c9W2 : PyState := (docUpdate c9W1 c1A).1

/-- State after a successful A.delete(). -/
def c9W3 : PyState := (docDelete c9W2 c1A).1

/-- The name descriptor of User, as resolved on the class. -/
def nameField : FieldD := ⟨some "name", false, none⟩

/-- State for the C10 witness: Alice assigned, then saved. -/
def c10W : PyState := (docSave c9St2 c1A).1

/-! Claim theorems. -/

/-- C1.  The claim says every document instance holds its own private _data
mapping, initialized empty at instance creation, and that assigning a field on
one instance leaves another instance of the same schema unchanged.  The code
does the opposite: _data is a single class-level dict created (and, for
auto-id schemas, already populated) at class-definition time, and every
instance resolves to it, so distinct instances A and B of User share storage
and B observes the value assigned through A. -/
theorem c1_instances_share_class_data :
    documentMetaNew emptyStart "User" c1Declared = MetaResult.ok c1St1 c1Sch ∧
    c1A ≠ c1B ∧
    instData c1A = instData c1B ∧
    heapGet c1St1.heap (instData c1A) ≠ [] ∧
    getAttr (setAttr c1St1 c1A "name" (Val.vStr "Alice")) c1B "name" =
      some (Val.vStr "Alice") := by
  decide

/-- C2.  The claim (and the docstring of DocumentMeta.__new__) says a schema
declaring two primary-key field descriptors always fails with
MultiplePrimaryKey.  The scan runs before Field.__set_name__ resolves names,
so two primary-key fields declared without explicit names both store None into
id_field and no error is raised — the class is created with a third, auto
generated id primary key.  With explicit names the error does fire. -/
theorem c2_unnamed_double_primary_key_not_rejected :
    c2Unnamed.countP (fun p => p.2.primary_key) = 2 ∧
    documentMetaNew emptyStart "T" c2Unnamed =
      MetaResult.ok ⟨[[("id", Val.vInt 1)]], [], FileState.absent⟩
        ⟨"T", [("id", ⟨some "id", true, none⟩), ("a", ⟨some "a", true, none⟩),
               ("b", ⟨some "b", true, none⟩)], some "id", 0⟩ ∧
    documentMetaNew emptyStart "T" c2Named = MetaResult.err PyErr.multiplePrimaryKey := by
  decide

/-- C3.  The spec scenario: define User on an empty store, set A.name to
Alice, A.save(), then User.get(id=1) returns one instance named Alice — this
far the code agrees.  The scenario then requires B.save() to succeed with a
fresh id 2; instead, because all User instances share the class-level _data
(still holding id 1, assigned once at class-definition time), B.save() raises
DocumentAlreadyExists and B's id is still 1. -/
theorem c3_user_scenario_second_save_fails :
    documentMetaNew emptyStart "User" c1Declared = MetaResult.ok c1St1 c1Sch ∧
    c3Save1.2 = none ∧
    c3G.2 = [⟨c1Sch, 0⟩] ∧
    getAttr c3G.1 (⟨c1Sch, 0⟩ : Inst) "name" = some (Val.vStr "Alice") ∧
    getAttr c3St4 c1B "id" = some (Val.vInt 1) ∧
    c3Save2.2 = some PyErr.documentAlreadyExists := by
  decide

/-- C5.  The claim says a save() that fails with DocumentAlreadyExists
performs no write and leaves the collection unchanged.  In this run, schema P
is defined over a store whose collection P holds a record with key 1;
instance A (key 2) is saved, appending the shared class _data dict to the
collection; then B.key = 1 rewrites that shared dict, and B.save() raises
DocumentAlreadyExists — but its duplicate check runs through Document.get,
which copies the first matching record into the shared dict, so the saved
record at ref 1 changes content and the serialized collection differs even
though the error was raised. -/
theorem c5_failed_save_mutates_collection :
    wormDBInit c5File = (c5St0, none) ∧
    documentMetaNew c5St0 "P" c5Declared = MetaResult.ok c5St1 c5Sch ∧
    c5SaveA.2 = none ∧
    assocGet c5St4.cache "P" = some [0, 1] ∧
    c5SaveB.2 = some PyErr.documentAlreadyExists ∧
    heapGet c5SaveB.1.heap 1 ≠ heapGet c5St4.heap 1 ∧
    serializeCache c5SaveB.1 ≠ serializeCache c5St4 := by
  decide

/-- C6, counterexample.  The claim says get_raw returns exactly the records
matching all criteria.  On a collection whose first record matches the
criterion name = "x" but whose second record lacks the name key entirely, the
KeyError raised while filtering is caught by the same handler as a missing
collection, and get_raw returns the empty list instead of the matching
record. -/
theorem c6_missing_key_counterexample :
    documentMetaNew (wormDBInit c6File).1 "U" c1Declared = MetaResult.ok c6St c6Sch ∧
    assocGet (heapGet c6St.heap 0) "name" = some (Val.vStr "x") ∧
    getRaw c6St c6Sch [("name", Val.vStr "x")] = [] ∧
    getRawSpec c6St c6Sch [("name", Val.vStr "x")] = [0] ∧
    getRaw c6St c6Sch [("name", Val.vStr "x")] ≠
      getRawSpec c6St c6Sch [("name", Val.vStr "x")] := by
  decide

/-- C8.  The claim says get() wraps each raw match in a newly constructed
instance whose _data holds that record's contents.  With two matching records,
both returned instances resolve to the one class-level _data dict, which after
the loop holds the key-wise merge ending with the last record — so the first
returned instance does not hold its own record's contents. -/
theorem c8_get_aliases_class_data :
    documentMetaNew (wormDBInit c8File).1 "U" c1Declared = MetaResult.ok c8St c8Sch ∧
    getRaw c8St c8Sch [] = [0, 1] ∧
    heapGet c8St.heap 0 = [("id", Val.vInt 1), ("name", Val.vStr "a")] ∧
    c8G.2 = [⟨c8Sch, 0⟩, ⟨c8Sch, 1⟩] ∧
    instData (⟨c8Sch, 0⟩ : Inst) = instData (⟨c8Sch, 1⟩ : Inst) ∧
    heapGet c8G.1.heap (instData (⟨c8Sch, 0⟩ : Inst)) =
      [("id", Val.vInt 2), ("name", Val.vStr "b")] ∧
    heapGet c8G.1.heap (instData (⟨c8Sch, 0⟩ : Inst)) ≠ heapGet c8G.1.heap 0 := by
  decide

/-! Helper lemmas. -/

/-- A scan over descriptors none of which is a primary key leaves the
recorded id_field untouched. -/
theorem scanFields_no_pk (l : List (String × FieldD)) (idf : Option String)
    (h : ∀ p ∈ l, p.2.primary_key = false) : scanFields l idf = some idf := by
  induction l generalizing idf with
  | nil => rfl
  | cons p rest ih =>
      have hp := h p (List.mem_cons_self _ _)
      simp only [scanFields, hp, Bool.false_eq_true, if_false]
      exact ih idf fun q hq => h q (List.mem_cons_of_mem _ hq)

/-- Dereferencing a freshly allocated dict. -/
theorem heapGet_append_middle (h : Heap) (d : Dict) (rest : Heap) :
    heapGet (h ++ d :: rest) h.length = d := by
  induction h with
  | nil => rfl
  | cons a t ih => simpa [heapGet, List.getD] using ih

/-- Overwriting a valid reference is observable at that reference. -/
theorem heapGet_set_self (h : Heap) (r : Ref) (d : Dict) (hr : r < h.length) :
    heapGet (heapSet h r d) r = d := by
  induction h generalizing r with
  | nil => cases hr
  | cons a t ih =>
      cases r with
      | zero => rfl
      | succ r' => simpa [heapGet, heapSet, List.getD] using ih r' (Nat.lt_of_succ_lt_succ hr)

/-- Reading back the key just assigned. -/
theorem assocGet_assocSet_self {α : Type} (l : List (String × α)) (k : String) (v : α) :
    assocGet (assocSet l k v) k = some v := by
  induction l with
  | nil => simp [assocGet, assocSet]
  | cons p rest ih =>
      by_cases hk : p.1 = k
      · simp [assocGet, assocSet, hk]
      · simp [assocGet, assocSet, hk, ih]

/-- intsOf only returns the empty list on the empty input. -/
theorem intsOf_eq_nil (l : List (Option Val)) (h : intsOf l = some []) : l = [] := by
  cases l with
  | nil => rfl
  | cons v rest =>
      exfalso
      simp only [intsOf] at h
      cases hv : v.bind idAsInt with
      | none => rw [hv] at h; cases h
      | some n =>
          rw [hv] at h
          cases hr : intsOf rest with
          | none => rw [hr] at h; cases h
          | some l' => rw [hr] at h; simp at h

/-- The fold computing Python's max over a nonempty list lands in the list
(initial element included). -/
theorem foldl_max_mem (a : Int) (t : List Int) : t.foldl max a ∈ a :: t := by
  induction t generalizing a with
  | nil => simp
  | cons b t ih =>
      simp only [List.foldl_cons]
      rcases List.mem_cons.mp (ih (max a b)) with h1 | h1
      · rcases max_choice a b with hm | hm
        · rw [h1, hm]; exact List.mem_cons_self _ _
        · rw [h1, hm]; exact List.mem_cons_of_mem _ (List.mem_cons_self _ _)
      · exact List.mem_cons_of_mem _ (List.mem_cons_of_mem _ h1)

/-- The initial element is bounded by the fold computing Python's max. -/
theorem init_le_foldl_max (a : Int) (t : List Int) : a ≤ t.foldl max a := by
  induction t generalizing a with
  | nil => exact le_refl a
  | cons b t ih => exact le_trans (le_max_left a b) (ih (max a b))

/-- Every element of the list (initial element included) is bounded by the
fold computing Python's max. -/
theorem le_foldl_max (a x : Int) (t : List Int) (hx : x ∈ a :: t) :
    x ≤ t.foldl max a := by
  induction t generalizing a with
  | nil =>
      simp only [List.mem_singleton] at hx
      simp [hx]
  | cons b t ih =>
      simp only [List.foldl_cons]
      rcases List.mem_cons.mp hx with rfl | hx'
      · exact le_trans (le_max_left x b) (init_le_foldl_max (max x b) t)
      · rcases List.mem_cons.mp hx' with rfl | hx2
        · exact le_trans (le_max_right a x) (init_le_foldl_max (max a x) t)
        · exact ih (max a b) (List.mem_cons_of_mem _ hx2)

/-- C4.  For a schema declared with no primary-key descriptor,
DocumentMeta.__new__ synthesizes an id field: it is first in the fields list,
marked primary, registered as id_field, and the class _data created at
schema-definition time already maps id to the auto-increment value — 1 when
the collection is absent from the store, when some existing record lacks an
id entry (the KeyError case), or when the collection is empty, and otherwise
one plus the maximum of the existing integer ids, read from the store as it
stands at schema-definition time. -/
theorem c4_auto_id_spec (st : PyState) (nm : String) (declared : List (String × FieldD))
    (st' : PyState) (sch : Schema)
    (hno : ∀ p ∈ declared, p.2.primary_key = false)
    (hok : documentMetaNew st nm declared = MetaResult.ok st' sch) :
    sch.id_field = some "id" ∧
    (∃ f rest, sch.fields = ("id", f) :: rest ∧ f.primary_key = true ∧
      f.fname = some "id") ∧
    ∃ n : Int,
      assocGet (heapGet st'.heap sch.classData) "id" = some (Val.vInt n) ∧
      ((assocGet st.cache nm = none ∧ n = 1) ∨
        ∃ refs, assocGet st.cache nm = some refs ∧
          (((idsOf st refs).any Option.isNone = true ∧ n = 1) ∨
           (refs = [] ∧ n = 1) ∨
           (∃ ids, intsOf (idsOf st refs) = some ids ∧ ids ≠ [] ∧
              n = maxInt ids + 1 ∧ maxInt ids ∈ ids ∧ ∀ x ∈ ids, x ≤ maxInt ids))) := by
  unfold documentMetaNew at hok
  rw [scanFields_no_pk declared none hno] at hok
  cases hn : nextId st nm with
  | none => rw [hn] at hok; cases hok
  | some n =>
      rw [hn] at hok
      cases hok
      refine ⟨rfl, ⟨⟨some "id", true, none⟩, resolveNames declared, rfl, rfl, rfl⟩, n, ?_, ?_⟩
      · show assocGet (heapGet (st.heap ++ [("id", Val.vInt n)] :: []) st.heap.length) "id" =
          some (Val.vInt n)
        rw [heapGet_append_middle]
        rfl
      · cases hc : assocGet st.cache nm with
        | none =>
            simp only [nextId, hc, Option.some.injEq] at hn
            exact Or.inl ⟨rfl, hn.symm⟩
        | some refs =>
            simp only [nextId, hc] at hn
            refine Or.inr ⟨refs, rfl, ?_⟩
            by_cases hany : (idsOf st refs).any Option.isNone = true
            · rw [if_pos hany] at hn
              simp only [Option.some.injEq] at hn
              exact Or.inl ⟨hany, hn.symm⟩
            · rw [if_neg hany] at hn
              cases hi : intsOf (idsOf st refs) with
              | none => rw [hi] at hn; cases hn
              | some ids =>
                  rw [hi] at hn
                  cases ids with
                  | nil =>
                      simp only [Option.some.injEq] at hn
                      refine Or.inr (Or.inl ⟨?_, hn.symm⟩)
                      have h0 := intsOf_eq_nil _ hi
                      simpa [idsOf] using h0
                  | cons a t =>
                      simp only [Option.some.injEq] at hn
                      refine Or.inr (Or.inr ⟨a :: t, rfl, by simp, ?_, foldl_max_mem a t, ?_⟩)
                      · rw [← hn]; rfl
                      · intro x hx; exact le_foldl_max a x t hx

/-- C4 witness: defining the witness schema over a store whose collection U
holds ids 3 and 5 registers id as the primary key. -/
theorem c4_auto_id_spec_witness : c4wSch.id_field = some "id" :=
  (c4_auto_id_spec c4wSt "U" c4wDeclared c4wSt' c4wSch (by decide) (by decide)).1

/-- Composing two filter passes. -/
theorem filter_filter_and {α : Type} (p q : α → Bool) (l : List α) :
    (l.filter p).filter q = l.filter fun a => p a && q a := by
  induction l with
  | nil => rfl
  | cons a t ih => cases hp : p a <;> cases hq : q a <;> simp [List.filter_cons, hp, hq, ih]

/-- When every record of the sequence carries every criteria key, the
sequential filtering of get_raw computes the conjunctive filter of the
spec. -/
theorem runFilters_spec (st : PyState) (criteria : List (String × Val)) :
    ∀ seq : List Ref,
      (∀ r ∈ seq, ∀ p ∈ criteria, (assocGet (heapGet st.heap r) p.1).isSome = true) →
      runFilters st criteria seq =
        some (seq.filter fun r =>
          criteria.all fun p => decide (assocGet (heapGet st.heap r) p.1 = some p.2)) := by
  induction criteria with
  | nil =>
      intro seq _
      simp [runFilters, List.all_nil]
  | cons p rest ih =>
      intro seq h
      have hall : (seq.all fun r => (assocGet (heapGet st.heap r) p.1).isSome) = true := by
        rw [List.all_eq_true]
        intro r hr
        exact h r hr p (List.mem_cons_self _ _)
      have hstep : filterStep st p.1 p.2 seq =
          some (seq.filter fun r => decide (assocGet (heapGet st.heap r) p.1 = some p.2)) := by
        unfold filterStep
        rw [if_pos hall]
      have hsub : ∀ r ∈ (seq.filter fun r =>
          decide (assocGet (heapGet st.heap r) p.1 = some p.2)), ∀ q ∈ rest,
          (assocGet (heapGet st.heap r) q.1).isSome = true := by
        intro r hr q hq
        exact h r (List.mem_of_mem_filter hr) q (List.mem_cons_of_mem _ hq)
      calc runFilters st (p :: rest) seq
          = runFilters st rest (seq.filter fun r =>
              decide (assocGet (heapGet st.heap r) p.1 = some p.2)) := by
            simp [runFilters, hstep]
        _ = some ((seq.filter fun r =>
              decide (assocGet (heapGet st.heap r) p.1 = some p.2)).filter fun r =>
              rest.all fun q => decide (assocGet (heapGet st.heap r) q.1 = some q.2)) :=
            ih _ hsub
        _ = some (seq.filter fun r =>
              (p :: rest).all fun q => decide (assocGet (heapGet st.heap r) q.1 = some q.2)) := by
            rw [filter_filter_and]
            simp [List.all_cons]

/-- C6, amended.  The claim holds once restricted to collections in which
every record defines every criteria key: get_raw then returns exactly the
records matching all criteria (logical AND) in collection order, all records
for empty criteria, and the empty sequence when the collection is absent; the
code performs no state mutation, which the embedding shows by type (getRaw
returns no state).  Without that restriction the counterexample applies: a
record lacking a criteria key makes get_raw return the empty list. -/
theorem c6_get_raw_amended (st : PyState) (sch : Schema) (criteria : List (String × Val))
    (hkeys : ∀ r ∈ (assocGet st.cache sch.sname).getD [], ∀ p ∈ criteria,
        (assocGet (heapGet st.heap r) p.1).isSome = true) :
    getRaw st sch criteria = getRawSpec st sch criteria ∧
    (assocGet st.cache sch.sname = none → getRaw st sch criteria = []) ∧
    (criteria = [] → ∀ seq, assocGet st.cache sch.sname = some seq →
      getRaw st sch criteria = seq) := by
  refine ⟨?_, ?_, ?_⟩
  · cases hc : assocGet st.cache sch.sname with
    | none => simp [getRaw, getRawSpec, hc]
    | some seq =>
        rw [hc] at hkeys
        simp only [Option.getD_some] at hkeys
        simp only [getRaw, getRawSpec, hc, runFilters_spec st criteria seq hkeys]
  · intro hc
    simp [getRaw, hc]
  · intro hcrit seq hc
    subst hcrit
    simp [getRaw, hc, runFilters]

/-- C6 witness: on a store whose records all carry the criteria key, get_raw
agrees with the spec filter. -/
theorem c6_get_raw_amended_witness :
    getRaw c6wSt c6Sch [("name", Val.vStr "x")] =
      getRawSpec c6wSt c6Sch [("name", Val.vStr "x")] :=
  (c6_get_raw_amended c6wSt c6Sch [("name", Val.vStr "x")] (by decide)).1

/-- The heap after allocating a list of records is the old heap followed by
those records. -/
theorem loadRecs_heap (ds : List Dict) : ∀ h : Heap, (loadRecs h ds).1 = h ++ ds := by
  induction ds with
  | nil => intro h; simp [loadRecs]
  | cons d ds ih =>
      intro h
      simp [loadRecs, ih (h ++ [d])]

/-- The references handed out for a loaded list of records dereference to
those records, in any later extension of the heap. -/
theorem loadRecs_deref (ds : List Dict) : ∀ (h ext : Heap),
    (loadRecs h ds).2.map (heapGet ((loadRecs h ds).1 ++ ext)) = ds := by
  induction ds with
  | nil => intro h ext; rfl
  | cons d ds ih =>
      intro h ext
      simp only [loadRecs, List.map_cons, List.cons.injEq]
      refine ⟨?_, ih (h ++ [d]) ext⟩
      rw [loadRecs_heap]
      have hassoc : (h ++ [d]) ++ ds ++ ext = h ++ d :: (ds ++ ext) := by simp
      rw [hassoc]
      exact heapGet_append_middle h d (ds ++ ext)

/-- Loading collections only appends to the heap. -/
theorem loadColls_heap_ext (c : List (String × List Dict)) :
    ∀ h : Heap, ∃ ext, (loadColls h c).1 = h ++ ext := by
  induction c with
  | nil => intro h; exact ⟨[], by simp [loadColls]⟩
  | cons e rest ih =>
      intro h
      obtain ⟨n, ds⟩ := e
      obtain ⟨ext, hext⟩ := ih (loadRecs h ds).1
      rw [loadRecs_heap] at hext
      refine ⟨ds ++ ext, ?_⟩
      simp [loadColls, hext, loadRecs_heap, List.append_assoc]

/-- Serializing the loaded cache against the loaded heap reproduces the
parsed file content. -/
theorem loadColls_serialize (c : List (String × List Dict)) : ∀ h : Heap,
    (loadColls h c).2.map (fun p => (p.1, p.2.map (heapGet (loadColls h c).1))) = c := by
  induction c with
  | nil => intro h; rfl
  | cons e rest ih =>
      intro h
      obtain ⟨n, ds⟩ := e
      simp only [loadColls, List.map_cons, List.cons.injEq]
      refine ⟨?_, ih (loadRecs h ds).1⟩
      obtain ⟨ext, hext⟩ := loadColls_heap_ext rest (loadRecs h ds).1
      rw [hext]
      exact congrArg (fun l => (n, l)) (loadRecs_deref ds h ext)

/-- C7.  WormDB initialization against the configured path: an absent file
leaves the store empty without error; an existing zero-byte file is treated
as an empty store without error; an existing non-empty file that fails to
parse raises the decode error (the spec's CorruptStore) and leaves the cache
untouched; a well-formed file replaces the in-memory mapping with the parsed
content, witnessed by the serialization of the loaded cache being exactly
that content. -/
theorem c7_load_cases (c : List (String × List Dict)) (sz : Nat) (hsz : 0 < sz) :
    wormDBInit FileState.absent = (⟨[], [], FileState.absent⟩, none) ∧
    wormDBInit (FileState.malformed 0) = (⟨[], [], FileState.malformed 0⟩, none) ∧
    wormDBInit (FileState.malformed sz) =
      (⟨[], [], FileState.malformed sz⟩, some PyErr.corruptStore) ∧
    (wormDBInit (FileState.wellFormed c)).2 = none ∧
    serializeCache (wormDBInit (FileState.wellFormed c)).1 = c := by
  refine ⟨rfl, rfl, ?_, ?_, ?_⟩
  · have hne : ¬ sz = 0 := Nat.pos_iff_ne_zero.mp hsz
    simp [wormDBInit, wormRead, hne]
  · simp [wormDBInit, wormRead]
  · simp only [wormDBInit, wormRead, serializeCache]
    exact loadColls_serialize c []

/-- C7 witness: loading a concrete two-collection file succeeds and its
in-memory image serializes back to the file content. -/
theorem c7_load_cases_witness :
    serializeCache (wormDBInit (FileState.wellFormed c7wC)).1 = c7wC :=
  (c7_load_cases c7wC 7 (by decide)).2.2.2.2

/-- After WormDB.write the file holds exactly the serialization of the
in-memory store (write only changes the file component, which the
serialization does not read). -/
theorem wormWrite_file (st : PyState) :
    (wormWrite st).file = FileState.wellFormed (serializeCache (wormWrite st)) := rfl

/-- C9.  Every mutating document operation that returns successfully has just
rewritten the whole file: in the returned state the on-disk content equals
the serialization of the entire in-memory store. -/
theorem c9_write_through (st : PyState) (i : Inst) :
    (∀ st', docSave st i = (st', none) →
      st'.file = FileState.wellFormed (serializeCache st')) ∧
    (∀ st', docUpdate st i = (st', none) →
      st'.file = FileState.wellFormed (serializeCache st')) ∧
    (∀ st', docDelete st i = (st', none) →
      st'.file = FileState.wellFormed (serializeCache st')) := by
  refine ⟨?_, ?_, ?_⟩ <;> intro st' h
  · simp only [docSave] at h
    split at h
    · injection h with h1 h2
      rw [← h1]
      exact wormWrite_file _
    · injection h with h1 h2
      exact Option.noConfusion h2
  · simp only [docUpdate] at h
    split at h
    · injection h with h1 h2
      exact Option.noConfusion h2
    · split at h
      · injection h with h1 h2
        exact Option.noConfusion h2
      · injection h with h1 h2
        rw [← h1]
        exact wormWrite_file _
  · simp only [docDelete] at h
    split at h
    · injection h with h1 h2
      exact Option.noConfusion h2
    · split at h
      · injection h with h1 h2
        exact Option.noConfusion h2
      · injection h with h1 h2
        rw [← h1]
        exact wormWrite_file _

/-- C9 witness: a successful save, then update, then delete of a User
instance each leave the file equal to the serialized store. -/
theorem c9_write_through_witness :
    c9W1.file = FileState.wellFormed (serializeCache c9W1) ∧
    c9W2.file = FileState.wellFormed (serializeCache c9W2) ∧
    c9W3.file = FileState.wellFormed (serializeCache c9W3) :=
  ⟨(c9_write_through c9St2 c1A).1 c9W1 (by decide),
   (c9_write_through c9W1 c1A).2.1 c9W2 (by decide),
   (c9_write_through c9W2 c1A).2.2 c9W3 (by decide)⟩

/-- C10.  A successful save() appends the instance's own live _data dict to
the collection (Document.to_dict returns the mapping itself, not a copy):
the collection ends with the very reference the instance writes through, so
a later field assignment on that instance rewrites the stored record, and
get_raw with no criteria already shows the new value without update() ever
running. -/
theorem docSave_success (st st1 : PyState) (i : Inst)
    (hsave : docSave st i = (st1, none)) :
    ∃ (X : PyState) (col : List Ref),
      st1 = wormWrite { X with
        cache := assocSet X.cache i.schema.sname (col ++ [instData i]) } := by
  simp only [docSave] at hsave
  split at hsave
  · injection hsave with h1 h2
    exact ⟨_, _, h1.symm⟩
  · injection hsave with h1 h2
    exact Option.noConfusion h2

theorem c10_save_appends_live_data (st st1 : PyState) (i : Inst) (f : FieldD)
    (nm : String) (v : Val)
    (hsave : docSave st i = (st1, none))
    (hf : f.fname = some nm) (hv : v ≠ Val.vNull)
    (hr : instData i < st1.heap.length) :
    (∃ col0, assocGet st1.cache i.schema.sname = some (col0 ++ [instData i])) ∧
    ((getRaw (fieldSet st1 i f v) i.schema []).map
        (heapGet (fieldSet st1 i f v).heap)).getLast?
      = some (assocSet (heapGet st1.heap (instData i)) nm v) := by
  obtain ⟨X, col, heq⟩ := docSave_success st st1 i hsave
  have hcache : st1.cache = assocSet X.cache i.schema.sname (col ++ [instData i]) := by
    rw [heq]
    rfl
  have hgetc : assocGet st1.cache i.schema.sname = some (col ++ [instData i]) := by
    rw [hcache]
    exact assocGet_assocSet_self _ _ _
  refine ⟨⟨col, hgetc⟩, ?_⟩
  have hraw : getRaw (fieldSet st1 i f v) i.schema [] = col ++ [instData i] := by
    unfold getRaw
    have hsame : assocGet (fieldSet st1 i f v).cache i.schema.sname =
        some (col ++ [instData i]) := hgetc
    rw [hsame]
    rfl
  have hheap : heapGet (fieldSet st1 i f v).heap (instData i) =
      assocSet (heapGet st1.heap (instData i)) nm v := by
    show heapGet (heapSet st1.heap (instData i)
        (assocSet (heapGet st1.heap (instData i)) (f.fname.getD "")
          (if v = Val.vNull ∧ f.defaultVal.isSome then f.defaultVal.getD v else v)))
        (instData i) = _
    have hvv : (if v = Val.vNull ∧ f.defaultVal.isSome then f.defaultVal.getD v else v) = v :=
      if_neg fun hand => hv hand.1
    rw [hvv, heapGet_set_self _ _ _ hr, hf]
    rfl
  rw [hraw, List.map_append]
  simp [List.getLast?_concat, hheap]

/-- C10 witness: after saving the User instance, assigning name = "Bob" on it
changes the last raw record returned by a criteria-free get_raw. -/
theorem c10_save_appends_live_data_witness :
    (∃ col0, assocGet c10W.cache c1Sch.sname = some (col0 ++ [instData c1A])) ∧
    ((getRaw (fieldSet c10W c1A nameField (Val.vStr "Bob")) c1Sch []).map
        (heapGet (fieldSet c10W c1A nameField (Val.vStr "Bob")).heap)).getLast?
      = some (assocSet (heapGet c10W.heap (instData c1A)) "name" (Val.vStr "Bob")) :=
  c10_save_appends_live_data c9St2 c10W c1A nameField "name" (Val.vStr "Bob")
    (by decide) (by decide) (by decide) (by decide)

end WormSpec
